import Mathlib

/-!
Shallow embedding of the vsock relay programs of this repository
(the vsock-proxy relay endpoint with bind retry, environment port
override and KMS backend adapter, and the interactive connector
client), together with theorems checking the natural-language
specification against them.

Blocking system calls (bind, accept, read, write, the outbound HTTP
call) are modelled by explicit outcome parameters: a definition takes
the sequence of results the calls would return and computes the control
flow and the observable events of the Go function on those outcomes.
-/

namespace NitroSim

/-! ## Relay endpoint startup: the bind retry loop

From the vsock-proxy `main`: `maxRetries := 5`; for `i` from 0: on bind
failure, if `i < maxRetries-1` the socket is closed, the process sleeps
2 seconds, the socket is recreated and the loop continues; on the last
attempt's failure `log.Fatalf` terminates startup; on bind success the
loop breaks. `outcome i` tells whether the bind call of attempt `i`
(0-indexed) succeeds. -/

/-- Observable events of the bind retry loop. `sleepSeconds` records the
backoff duration; `closeSocket`/`recreateSocket` record that the failed
socket resource is discarded and a fresh one created before retrying. -/
inductive BindEvent where
  | bindAttempt (i : Nat)
  | closeSocket
  | sleepSeconds (s : Nat)
  | recreateSocket
  deriving DecidableEq, Repr

/-- Result of startup binding: bound after `attempts` bind calls, fatal
startup failure after `attempts` bind calls, or loop fell through. -/
inductive BindResult where
  | bound (attempts : Nat)
  | fatal (attempts : Nat)
  | exited
  deriving DecidableEq, Repr

/-- The bind retry loop of the vsock-proxy `main`, from loop index `i`,
with the given per-attempt bind outcomes. Returns the result and the
event trace. -/
def bindLoop (outcome : Nat → Bool) (maxRetries : Nat) (i : Nat) :
    BindResult × List BindEvent :=
  if _h : i < maxRetries then
    if outcome i then
      (BindResult.bound (i + 1), [BindEvent.bindAttempt i])
    else if i < maxRetries - 1 then
      let rest := bindLoop outcome maxRetries (i + 1)
      (rest.1,
        BindEvent.bindAttempt i :: BindEvent.closeSocket ::
          BindEvent.sleepSeconds 2 :: BindEvent.recreateSocket :: rest.2)
    else
      (BindResult.fatal (i + 1), [BindEvent.bindAttempt i])
  else
    (BindResult.exited, [])
termination_by maxRetries - i

/-- Startup binding as performed by `main`: the retry loop run from
attempt 0 with `maxRetries = 5`. -/
def bindAndListen (outcome : Nat → Bool) : BindResult × List BindEvent :=
  bindLoop outcome 5 0

/-! ## Relay endpoint accept loop

From the vsock-proxy `main`: an unbounded `for` loop; `unix.Accept`
failure is logged and the loop `continue`s; on success
`connectionCount` is incremented and `handleVsockConnection` is
dispatched on a new goroutine. We run the loop over a finite prefix of
accept outcomes and record the dispatched handlers. -/

/-- Outcome of one `unix.Accept` call: an error, or a new connection
(identified by its file descriptor). -/
inductive AcceptOutcome where
  | acceptFail
  | acceptOk (nfd : Nat)
  deriving DecidableEq, Repr

/-- The accept loop over a finite prefix of accept outcomes, with the
current `connectionCount`. Returns the list of dispatched handler
invocations as (connID, fd) pairs, in order. The loop itself never
returns in the source; an accept error only logs and continues. -/
def acceptLoop (count : Nat) : List AcceptOutcome → List (Nat × Nat)
  | [] => []
  | AcceptOutcome.acceptFail :: rest => acceptLoop count rest
  | AcceptOutcome.acceptOk nfd :: rest =>
      (count + 1, nfd) :: acceptLoop (count + 1) rest

/-! ## Per-connection handler

From `handleVsockConnection`: a deferred `unix.Close(fd)` runs on every
exit path. One `unix.Read` into a `make([]byte, 4096)` buffer; a read
error returns (abort). Then `encryptWithKMS` on the received bytes; an
error returns (abort). Then one `unix.Write` of the encrypted result;
a write error merely returns after the write call. -/

/-- Outcome of the single `unix.Read` call: an error, or the bytes it
placed in the buffer (`buffer[:n]`). -/
inductive ReadOutcome where
  | readFail
  | readOk (data : List UInt8)
  deriving DecidableEq, Repr

/-- Outcome of the `encryptWithKMS` call seen by the handler: an error,
or the encrypted result string (as bytes). -/
inductive EncOutcome where
  | encFail
  | encOk (ciphertext : List UInt8)
  deriving DecidableEq, Repr

/-- Observable events of one connection handler, in program order. -/
inductive HEvent where
  | readCall
  | encryptCall (plaintext : List UInt8)
  | writeCall (reply : List UInt8)
  | closeConn
  deriving DecidableEq, Repr

/-- The handler `handleVsockConnection`, as the event trace it produces given the
outcomes of its read, encrypt and write calls. The deferred close is
the final event of every path. A write error changes no event: the
write call has already been issued when the error is observed. -/
def handleVsockConnection (rd : ReadOutcome) (enc : List UInt8 → EncOutcome)
    (_writeOk : Bool) : List HEvent :=
  match rd with
  | ReadOutcome.readFail => [HEvent.readCall, HEvent.closeConn]
  | ReadOutcome.readOk data =>
    match enc data with
    | EncOutcome.encFail =>
        [HEvent.readCall, HEvent.encryptCall data, HEvent.closeConn]
    | EncOutcome.encOk ct =>
        [HEvent.readCall, HEvent.encryptCall data, HEvent.writeCall ct,
          HEvent.closeConn]

/-- Model of the single successful `unix.Read(fd, buffer)` with
`buffer := make([]byte, 4096)` when `delivered` bytes are available on
the stream: one read call returns at most the buffer's capacity, here
the first 4096 available bytes. -/
def readOnce (delivered : List UInt8) : List UInt8 :=
  delivered.take 4096

/-! ## Backend adapter: base64 and the KMS encrypt request

`encryptWithKMS` base64-encodes the plaintext with Go's
`base64.StdEncoding`, marshals `KMSEncryptRequest{KeyId: "alias/dev-key",
Plaintext: plaintextBase64}` to JSON, and POSTs it to
`fmt.Sprintf("%s/kms", kmsTarget)` with headers
`Content-Type: application/x-amz-json-1.1` and
`X-Amz-Target: TrentService.Encrypt`, on a client with a 10-second
timeout. Go strings are byte sequences; we model them as `List UInt8`
where byte identity matters and as `String` for names that stay ASCII
(method, URL, headers). -/

/-- The standard base64 alphabet of Go's `base64.StdEncoding`, as ASCII
bytes: `A`-`Z`, `a`-`z`, `0`-`9`, `+`, `/`. -/
def b64Alphabet : List UInt8 :=
  "ABCDEFGHIJKLMNOPQRSTUVWXYZabcdefghijklmnopqrstuvwxyz0123456789+/".data.map
    (fun c => UInt8.ofNat c.toNat)

/-- The alphabet byte for a 6-bit group. -/
def b64Char (n : Nat) : UInt8 :=
  b64Alphabet.getD n 65

/-- The ASCII code of the base64 padding character `=`. -/
def b64Pad : UInt8 := 61

/-- Go `base64.StdEncoding.EncodeToString`, producing the ASCII bytes of
the encoded string: 3-byte groups become 4 alphabet bytes; a 1-byte
remainder becomes 2 alphabet bytes and `==`; a 2-byte remainder becomes
3 alphabet bytes and `=`. -/
def base64Encode : List UInt8 → List UInt8
  | [] => []
  | [b0] =>
      [b64Char (b0.toNat / 4), b64Char (b0.toNat % 4 * 16), b64Pad, b64Pad]
  | [b0, b1] =>
      [b64Char (b0.toNat / 4), b64Char (b0.toNat % 4 * 16 + b1.toNat / 16),
        b64Char (b1.toNat % 16 * 4), b64Pad]
  | b0 :: b1 :: b2 :: rest =>
      b64Char (b0.toNat / 4) ::
      b64Char (b0.toNat % 4 * 16 + b1.toNat / 16) ::
      b64Char (b1.toNat % 16 * 4 + b2.toNat / 64) ::
      b64Char (b2.toNat % 64) :: base64Encode rest

/-- ASCII bytes of a Lean string literal (used for the fixed JSON
punctuation and field names, all ASCII). -/
def asciiBytes (s : String) : List UInt8 :=
  s.data.map (fun c => UInt8.ofNat c.toNat)

/-- A lowercase hexadecimal digit, as Go's JSON encoder writes in
`\u00XX` escapes. -/
def hexDigit (n : Nat) : UInt8 :=
  if n < 10 then UInt8.ofNat (48 + n) else UInt8.ofNat (87 + n)

/-- Go `encoding/json` escaping of one byte inside a JSON string (the
default encoder with HTML escaping): `"` and `\` get a backslash;
newline, carriage return and tab become `\n`, `\r`, `\t`; other control
bytes below 0x20 and the HTML-sensitive `&`, `<`, `>` become `\u00XX`;
every other byte below 0x80 is emitted as itself. Bytes at or above
0x80 are emitted as themselves (faithful for the valid UTF-8 sequences
our callers produce; the ASCII inputs of this program never reach that
case). -/
def goJSONEscapeByte (b : UInt8) : List UInt8 :=
  if b = 34 then [92, 34]
  else if b = 92 then [92, 92]
  else if b = 10 then [92, 110]
  else if b = 13 then [92, 114]
  else if b = 9 then [92, 116]
  else if b < 32 ∨ b = 38 ∨ b = 60 ∨ b = 62 then
    [92, 117, 48, 48, hexDigit (b.toNat / 16), hexDigit (b.toNat % 16)]
  else [b]

/-- Go JSON quoting of a byte string: a double quote, each byte escaped,
a double quote. -/
def goJSONQuote (s : List UInt8) : List UInt8 :=
  34 :: (s.flatMap goJSONEscapeByte) ++ [34]

/-- Marshalling of `KMSEncryptRequest{KeyId, Plaintext}` by `json.Marshal`: Go emits
the struct's fields in declaration order, so the body is
`{"KeyId":<keyId>,"Plaintext":<plaintext>}` with both values quoted and
escaped. -/
def marshalEncryptRequest (keyId plaintext : List UInt8) : List UInt8 :=
  asciiBytes "\x7b\"KeyId\":" ++ goJSONQuote keyId ++
    asciiBytes ",\"Plaintext\":" ++ goJSONQuote plaintext ++ asciiBytes "\x7d"

/-- The outbound HTTP request the backend adapter builds. -/
structure HTTPRequest where
  method : String
  url : String
  contentType : String
  xAmzTarget : String
  body : List UInt8
  timeoutSeconds : Nat
  deriving DecidableEq, Repr

/-- The KMS key reference constant of `encryptWithKMS`. -/
def kmsKeyId : List UInt8 := asciiBytes "alias/dev-key"

/-- The request-building half of `encryptWithKMS`: base64-encode the
plaintext, marshal `{KeyId: "alias/dev-key", Plaintext: base64}`, and
address `POST {kmsTarget}/kms` with the Encrypt target header on a
10-second client. -/
def buildEncryptRequest (plaintext : List UInt8) (kmsTarget : String) :
    HTTPRequest where
  method := "POST"
  url := kmsTarget ++ "/kms"
  contentType := "application/x-amz-json-1.1"
  xAmzTarget := "TrentService.Encrypt"
  body := marshalEncryptRequest kmsKeyId (base64Encode plaintext)
  timeoutSeconds := 10

/-- The fields of `KMSEncryptResponse` that `json.Unmarshal` fills. -/
structure KMSEncryptResponse where
  CiphertextBlob : List UInt8
  KeyId : List UInt8
  deriving DecidableEq, Repr

/-- Outcome of `client.Do` followed by `io.ReadAll(resp.Body)`: a send
error, a body-read error, or a status code with the full body bytes. -/
inductive HTTPOutcome where
  | sendFail
  | bodyReadFail
  | gotResponse (status : Nat) (body : List UInt8)
  deriving DecidableEq, Repr

/-- The errors `encryptWithKMS` can return. `statusError` is the
`"KMS request failed with status %d: %s"` case and carries the status
and the response body. -/
inductive KMSError where
  | sendError
  | readBodyError
  | statusError (status : Nat) (body : List UInt8)
  | parseError (body : List UInt8)
  deriving DecidableEq, Repr

/-- The adapter `encryptWithKMS`: build the request; `net` gives the outcome of the
HTTP round trip and `parse` models `json.Unmarshal` into
`KMSEncryptResponse`. A response with `StatusCode != http.StatusOK`
(200) is an error carrying status and body; otherwise the body is
parsed and the `CiphertextBlob` field is returned verbatim. -/
def encryptWithKMS (plaintext : List UInt8) (kmsTarget : String)
    (net : HTTPRequest → HTTPOutcome)
    (parse : List UInt8 → Option KMSEncryptResponse) :
    Except KMSError (List UInt8) :=
  match net (buildEncryptRequest plaintext kmsTarget) with
  | HTTPOutcome.sendFail => Except.error KMSError.sendError
  | HTTPOutcome.bodyReadFail => Except.error KMSError.readBodyError
  | HTTPOutcome.gotResponse status body =>
      if status ≠ 200 then Except.error (KMSError.statusError status body)
      else
        match parse body with
        | none => Except.error (KMSError.parseError body)
        | some r => Except.ok r.CiphertextBlob

/-! ## Listening address: CID and port resolution

From the vsock-proxy `main`: `vsockPort := 9000`; if `VSOCK_PORT` is a
non-empty environment value, `fmt.Sscanf(port, "%d", &vsockPort)` is
tried and on scan failure the default 9000 is restored; the address is
`unix.SockaddrVM{CID: 2, Port: uint32(vsockPort)}`. -/

/-- The numeric value of a longest nonempty decimal-digit prefix of a
character list, or `none` when the list does not start with a digit. -/
def decDigitsVal (cs : List Char) : Option Nat :=
  let ds := cs.takeWhile (fun c => c.isDigit)
  if ds.isEmpty then none
  else some (ds.foldl (fun acc c => acc * 10 + (c.toNat - 48)) 0)

/-- Model of Go `fmt.Sscanf(s, "%d", &x)` succeeding with value `x`:
leading whitespace is skipped, an optional sign is read, then a
nonempty run of decimal digits; trailing bytes after the number are
ignored by `Sscanf`. `none` models the scan returning an error (no
integer found). -/
def goSscanfD (s : String) : Option Int :=
  let cs := s.data.dropWhile (fun c => c = ' ' ∨ c = '\t' ∨ c = '\n' ∨ c = '\r')
  match cs with
  | '-' :: rest => (decDigitsVal rest).map (fun n => -(n : Int))
  | '+' :: rest => (decDigitsVal rest).map (fun n => (n : Int))
  | _ => (decDigitsVal cs).map (fun n => (n : Int))

/-- The `vsockPort` Go `int` after the environment check in `main`:
default 9000; a non-empty `VSOCK_PORT` that scans as an integer
replaces it; a non-empty value that fails to scan falls back to 9000. -/
def resolveVsockPort (env : Option String) : Int :=
  match env with
  | none => 9000
  | some s =>
      if s = "" then 9000
      else
        match goSscanfD s with
        | some v => v
        | none => 9000

/-- The listening context id of the vsock-proxy: `SockaddrVM.CID = 2`. -/
def listenCID : Nat := 2

/-- The listening port: `uint32(vsockPort)`, Go's wrapping conversion of
the resolved `int` to `uint32`. -/
def listenPort (env : Option String) : Nat :=
  ((resolveVsockPort env) % 4294967296).toNat

/-! ## The connector client loop

From the connector `main`: an unbounded loop reads a line
(`reader.ReadString('\n')`); the exact line `"exit\n"` breaks the loop
before any socket work; otherwise a vsock socket is created, connected
to CID 3 port 9000, the line's bytes are written verbatim, one reply of
up to 4096 bytes is read and printed, and the socket is closed; every
error on the way closes what was opened and `continue`s the loop. -/

/-- Outcome of one non-sentinel connector iteration's system calls: the
first failing call, or the reply bytes delivered by the read. -/
inductive ConnOutcome where
  | socketFail
  | connectFail
  | writeFail
  | readFail
  | replyOk (reply : List UInt8)
  deriving DecidableEq, Repr

/-- Observable events of the connector, in program order. `sendCall`
carries the bytes handed to `unix.Write`; `printedResult` carries the
reply bytes interpreted as text (`string(reply[:n])`). -/
inductive CEvent where
  | socketCreated
  | connectCall (cid port : Nat)
  | sendCall (payload : List UInt8)
  | printedResult (text : List UInt8)
  | socketClosed
  deriving DecidableEq, Repr

/-- One non-sentinel iteration of the connector loop on line `text`,
given its system-call outcomes. A socket-creation failure performs no
further call; each later failure closes the socket and continues; on
success the reply is printed and the socket closed. -/
def connectorStep (text : String) (io_ : ConnOutcome) : List CEvent :=
  match io_ with
  | ConnOutcome.socketFail => []
  | ConnOutcome.connectFail =>
      [CEvent.socketCreated, CEvent.connectCall 3 9000, CEvent.socketClosed]
  | ConnOutcome.writeFail =>
      [CEvent.socketCreated, CEvent.connectCall 3 9000,
        CEvent.sendCall (asciiBytes text), CEvent.socketClosed]
  | ConnOutcome.readFail =>
      [CEvent.socketCreated, CEvent.connectCall 3 9000,
        CEvent.sendCall (asciiBytes text), CEvent.socketClosed]
  | ConnOutcome.replyOk reply =>
      [CEvent.socketCreated, CEvent.connectCall 3 9000,
        CEvent.sendCall (asciiBytes text), CEvent.printedResult reply,
        CEvent.socketClosed]

/-- The connector loop over a finite prefix of console lines (each with
its iteration's system-call outcomes): stops at the first `"exit\n"`
line with no further event; every other line runs one `connectorStep`
and the loop continues, whatever the outcome. Returns the event trace
and whether the loop terminated via the sentinel. -/
def connectorRun : List (String × ConnOutcome) → List CEvent × Bool
  | [] => ([], false)
  | (text, io_) :: rest =>
      if text = "exit\n" then ([], true)
      else
        let r := connectorRun rest
        (connectorStep text io_ ++ r.1, r.2)

/-! ## Theorems -/

/-- Unfolding of the bind loop on a successful attempt `i`: the loop
binds and breaks after that one bind call. -/
theorem bindLoop_succ (outcome : Nat → Bool) (i : Nat) (h5 : i < 5)
    (h : outcome i = true) :
    bindLoop outcome 5 i = (BindResult.bound (i + 1), [BindEvent.bindAttempt i]) := by
  unfold bindLoop
  simp [h5, h]

/-- Unfolding of the bind loop on a failed non-final attempt `i`: close,
2-second sleep, socket recreation, then the loop continues at `i + 1`. -/
theorem bindLoop_fail_mid (outcome : Nat → Bool) (i : Nat) (h4 : i < 4)
    (h : outcome i = false) :
    bindLoop outcome 5 i =
      ((bindLoop outcome 5 (i + 1)).1,
        BindEvent.bindAttempt i :: BindEvent.closeSocket ::
          BindEvent.sleepSeconds 2 :: BindEvent.recreateSocket ::
          (bindLoop outcome 5 (i + 1)).2) := by
  have h5 : i < 5 := by omega
  conv_lhs => rw [bindLoop]
  simp [h5, h, h4]

/-- Unfolding of the bind loop on a failed final attempt: fatal startup
failure after the fifth bind call. -/
theorem bindLoop_fail_last (outcome : Nat → Bool) (h : outcome 4 = false) :
    bindLoop outcome 5 4 = (BindResult.fatal 5, [BindEvent.bindAttempt 4]) := by
  unfold bindLoop
  simp [h]

/-- C1: on every startup, the bind is retried up to 5 attempts with a
2-second backoff, the socket being discarded and recreated before each
retry; a first successful attempt `j < 5` ends startup binding in
success after `j + 1` bind calls and `j` backoff/recreate cycles, and
the result is fatal exactly when all 5 attempts fail. -/
theorem bind_retry_C1 (outcome : Nat → Bool) :
    ((∀ i, i < 5 → outcome i = false) →
      bindAndListen outcome =
        (BindResult.fatal 5,
          (List.range 4).flatMap (fun i =>
            [BindEvent.bindAttempt i, BindEvent.closeSocket,
              BindEvent.sleepSeconds 2, BindEvent.recreateSocket]) ++
            [BindEvent.bindAttempt 4]))
  ∧ (∀ j, j < 5 → outcome j = true → (∀ i, i < j → outcome i = false) →
      bindAndListen outcome =
        (BindResult.bound (j + 1),
          (List.range j).flatMap (fun i =>
            [BindEvent.bindAttempt i, BindEvent.closeSocket,
              BindEvent.sleepSeconds 2, BindEvent.recreateSocket]) ++
            [BindEvent.bindAttempt j]))
  ∧ ((bindAndListen outcome).1 = BindResult.fatal 5 ↔
      ∀ i, i < 5 → outcome i = false) := by
  have hfail : (∀ i, i < 5 → outcome i = false) →
      bindAndListen outcome =
        (BindResult.fatal 5,
          (List.range 4).flatMap (fun i =>
            [BindEvent.bindAttempt i, BindEvent.closeSocket,
              BindEvent.sleepSeconds 2, BindEvent.recreateSocket]) ++
            [BindEvent.bindAttempt 4]) := by
    intro h
    rw [bindAndListen,
      bindLoop_fail_mid outcome 0 (by omega) (h 0 (by omega)),
      bindLoop_fail_mid outcome 1 (by omega) (h 1 (by omega)),
      bindLoop_fail_mid outcome 2 (by omega) (h 2 (by omega)),
      bindLoop_fail_mid outcome 3 (by omega) (h 3 (by omega)),
      bindLoop_fail_last outcome (h 4 (by omega))]
    decide
  have hsucc : ∀ j, j < 5 → outcome j = true → (∀ i, i < j → outcome i = false) →
      bindAndListen outcome =
        (BindResult.bound (j + 1),
          (List.range j).flatMap (fun i =>
            [BindEvent.bindAttempt i, BindEvent.closeSocket,
              BindEvent.sleepSeconds 2, BindEvent.recreateSocket]) ++
            [BindEvent.bindAttempt j]) := by
    intro j hj hjt hprev
    interval_cases j
    · rw [bindAndListen, bindLoop_succ outcome 0 (by omega) hjt]
      decide
    · rw [bindAndListen,
        bindLoop_fail_mid outcome 0 (by omega) (hprev 0 (by omega)),
        bindLoop_succ outcome 1 (by omega) hjt]
      decide
    · rw [bindAndListen,
        bindLoop_fail_mid outcome 0 (by omega) (hprev 0 (by omega)),
        bindLoop_fail_mid outcome 1 (by omega) (hprev 1 (by omega)),
        bindLoop_succ outcome 2 (by omega) hjt]
      decide
    · rw [bindAndListen,
        bindLoop_fail_mid outcome 0 (by omega) (hprev 0 (by omega)),
        bindLoop_fail_mid outcome 1 (by omega) (hprev 1 (by omega)),
        bindLoop_fail_mid outcome 2 (by omega) (hprev 2 (by omega)),
        bindLoop_succ outcome 3 (by omega) hjt]
      decide
    · rw [bindAndListen,
        bindLoop_fail_mid outcome 0 (by omega) (hprev 0 (by omega)),
        bindLoop_fail_mid outcome 1 (by omega) (hprev 1 (by omega)),
        bindLoop_fail_mid outcome 2 (by omega) (hprev 2 (by omega)),
        bindLoop_fail_mid outcome 3 (by omega) (hprev 3 (by omega)),
        bindLoop_succ outcome 4 (by omega) hjt]
      decide
  refine ⟨hfail, hsucc, ?_, fun h => by rw [hfail h]⟩
  intro hfat
  by_contra hnot
  push_neg at hnot
  obtain ⟨i, hi5, hit⟩ := hnot
  have hex : ∃ n, outcome n = true := ⟨i, by simpa using hit⟩
  have hjt : outcome (Nat.find hex) = true := Nat.find_spec hex
  have hjmin : ∀ k, k < Nat.find hex → outcome k = false := by
    intro k hk
    have := Nat.find_min hex hk
    simpa using this
  have hj5 : Nat.find hex < 5 :=
    lt_of_le_of_lt (Nat.find_le (by simpa using hit)) hi5
  have := hsucc (Nat.find hex) hj5 hjt hjmin
  rw [this] at hfat
  simp at hfat

/-- Witness for C1: with the bind succeeding on the third attempt, the
endpoint binds after 3 bind calls and 2 backoff/recreate cycles. -/
theorem bind_retry_C1_witness :
    bindAndListen (fun i => decide (i = 2)) =
      (BindResult.bound 3,
        [BindEvent.bindAttempt 0, BindEvent.closeSocket,
          BindEvent.sleepSeconds 2, BindEvent.recreateSocket,
          BindEvent.bindAttempt 1, BindEvent.closeSocket,
          BindEvent.sleepSeconds 2, BindEvent.recreateSocket,
          BindEvent.bindAttempt 2]) := by
  have h := (bind_retry_C1 (fun i => decide (i = 2))).2.1 2 (by decide)
    (by decide) (by decide)
  exact h.trans (by decide)

/-- C2: the accept loop never terminates because of an accept error: an
accept failure anywhere in the outcome sequence is invisible to the
dispatch behaviour (log and continue), and every successful accept in
the sequence is dispatched to its own handler, in order. -/
theorem accept_loop_C2 :
    (∀ (count : Nat) (pre post : List AcceptOutcome),
      acceptLoop count (pre ++ AcceptOutcome.acceptFail :: post) =
        acceptLoop count (pre ++ post))
  ∧ (∀ (count : Nat) (outcomes : List AcceptOutcome),
      (acceptLoop count outcomes).map Prod.snd =
        outcomes.filterMap (fun o =>
          match o with
          | AcceptOutcome.acceptOk nfd => some nfd
          | AcceptOutcome.acceptFail => none)) := by
  constructor
  · intro count pre post
    induction pre generalizing count with
    | nil => simp [acceptLoop]
    | cons a pre ih => cases a <;> simp [acceptLoop, ih]
  · intro count outcomes
    induction outcomes generalizing count with
    | nil => simp [acceptLoop]
    | cons a rest ih => cases a <;> simp [acceptLoop, ih]

/-- C3: the connection handler closes the connection as the final event
of every exit path, and when the read fails or the encrypt call fails
the exchange aborts with no write call issued. -/
theorem handle_exchange_C3 (rd : ReadOutcome) (enc : List UInt8 → EncOutcome)
    (w : Bool) :
    (handleVsockConnection rd enc w).getLast? = some HEvent.closeConn
  ∧ (rd = ReadOutcome.readFail →
      ∀ r, HEvent.writeCall r ∉ handleVsockConnection rd enc w)
  ∧ (∀ d, rd = ReadOutcome.readOk d → enc d = EncOutcome.encFail →
      ∀ r, HEvent.writeCall r ∉ handleVsockConnection rd enc w) := by
  match rd with
  | ReadOutcome.readFail => simp [handleVsockConnection]
  | ReadOutcome.readOk d =>
    match henc : enc d with
    | EncOutcome.encFail => simp [handleVsockConnection, henc]
    | EncOutcome.encOk ct =>
      refine ⟨by simp [handleVsockConnection, henc], by simp, ?_⟩
      intro d' hd' hfail
      cases hd'
      rw [henc] at hfail
      cases hfail

/-- Witness for C3: a failed read leads to a trace that ends in the
close event and contains no write call. -/
theorem handle_exchange_C3_witness :
    ((handleVsockConnection ReadOutcome.readFail
        (fun _ => EncOutcome.encFail) true).getLast? = some HEvent.closeConn)
  ∧ (∀ r, HEvent.writeCall r ∉
      handleVsockConnection ReadOutcome.readFail (fun _ => EncOutcome.encFail) true) :=
  ⟨(handle_exchange_C3 ReadOutcome.readFail (fun _ => EncOutcome.encFail) true).1,
    (handle_exchange_C3 ReadOutcome.readFail (fun _ => EncOutcome.encFail) true).2.1 rfl⟩

/-- Every alphabet byte emitted by the encoder is left unchanged by the
Go JSON string escaper. -/
theorem escape_b64Char (n : Nat) : goJSONEscapeByte (b64Char n) = [b64Char n] := by
  by_cases h : n < 64
  · have hall : ∀ m, m < 64 → goJSONEscapeByte (b64Char m) = [b64Char m] := by decide
    exact hall n h
  · have hd : b64Char n = 65 := by
      have hlen : b64Alphabet.length ≤ n := by
        have : b64Alphabet.length = 64 := by decide
        omega
      unfold b64Char
      exact List.getD_eq_default _ _ hlen
    rw [hd]
    decide

/-- The padding byte is left unchanged by the Go JSON string escaper. -/
theorem escape_b64Pad : goJSONEscapeByte b64Pad = [b64Pad] := by decide

/-- Escaping a base64-encoded byte string for JSON is the identity: the
standard alphabet and the padding character need no JSON escapes. -/
theorem flatMap_escape_base64 (l : List UInt8) :
    (base64Encode l).flatMap goJSONEscapeByte = base64Encode l := by
  induction l using base64Encode.induct with
  | case1 => simp [base64Encode]
  | case2 b0 => simp [base64Encode, escape_b64Char, escape_b64Pad]
  | case3 b0 b1 => simp [base64Encode, escape_b64Char, escape_b64Pad]
  | case4 b0 b1 b2 rest ih => simp [base64Encode, escape_b64Char, ih]

/-- Quoting a base64-encoded byte string for JSON just wraps it in
double quotes. -/
theorem goJSONQuote_base64 (l : List UInt8) :
    goJSONQuote (base64Encode l) = 34 :: base64Encode l ++ [34] := by
  rw [goJSONQuote, flatMap_escape_base64]

/-- The marshalled request body with the constant key alias and a
base64 plaintext, written out: the base64 string stands verbatim inside
the quoted `Plaintext` field. -/
theorem marshal_body_b64 (plaintext : List UInt8) :
    marshalEncryptRequest kmsKeyId (base64Encode plaintext) =
      asciiBytes "\x7b\"KeyId\":\"alias/dev-key\",\"Plaintext\":\"" ++
        base64Encode plaintext ++ asciiBytes "\"\x7d" := by
  unfold marshalEncryptRequest
  rw [goJSONQuote_base64]
  have h1 : goJSONQuote kmsKeyId = asciiBytes "\"alias/dev-key\"" := by decide
  have hP : asciiBytes "\x7b\"KeyId\":" ++ asciiBytes "\"alias/dev-key\"" ++
      asciiBytes ",\"Plaintext\":" ++ ([34] : List UInt8) =
      asciiBytes "\x7b\"KeyId\":\"alias/dev-key\",\"Plaintext\":\"" := by decide
  have hS : ((34 : UInt8) :: asciiBytes "\x7d") = asciiBytes "\"\x7d" := by decide
  rw [h1, ← hP, ← hS]
  simp [List.append_assoc]

/-- C4: for every plaintext, the encrypt operation POSTs to
`{kmsTarget}/kms` with the `X-Amz-Target: TrentService.Encrypt` header
and a 10-second client timeout, and the JSON request body is
`{"KeyId":"alias/dev-key","Plaintext":<base64 of the plaintext>}`: the
base64-encoded plaintext stands verbatim in the `Plaintext` field. -/
theorem encrypt_request_C4 (plaintext : List UInt8) (target : String) :
    buildEncryptRequest plaintext target =
      { method := "POST"
        url := target ++ "/kms"
        contentType := "application/x-amz-json-1.1"
        xAmzTarget := "TrentService.Encrypt"
        body := asciiBytes "\x7b\"KeyId\":\"alias/dev-key\",\"Plaintext\":\"" ++
          base64Encode plaintext ++ asciiBytes "\"\x7d"
        timeoutSeconds := 10 } := by
  unfold buildEncryptRequest
  rw [marshal_body_b64]

/-- C5 counterexample: the backend status check is `!= 200`, not
"non-2xx": on the 2xx status 201 the encrypt operation returns the
status error instead of proceeding to parse the response. -/
theorem encrypt_status_C5_counterexample :
    (200 ≤ 201 ∧ 201 < 300)
  ∧ encryptWithKMS [] "http://localhost:4566"
      (fun _ => HTTPOutcome.gotResponse 201 (asciiBytes "created"))
      (fun _ => some ⟨asciiBytes "blob", asciiBytes "k"⟩) =
      Except.error (KMSError.statusError 201 (asciiBytes "created")) := by
  exact ⟨by omega, rfl⟩

/-- C5 (amended): the encrypt operation fails with a backend error
carrying the HTTP status and response body exactly when the status is
not 200; for status 200 it proceeds to parse the response body. -/
theorem encrypt_status_C5_amended (plaintext : List UInt8) (target : String)
    (net : HTTPRequest → HTTPOutcome)
    (parse : List UInt8 → Option KMSEncryptResponse)
    (status : Nat) (body : List UInt8)
    (hnet : net (buildEncryptRequest plaintext target) =
      HTTPOutcome.gotResponse status body) :
    (status ≠ 200 →
      encryptWithKMS plaintext target net parse =
        Except.error (KMSError.statusError status body))
  ∧ (status = 200 →
      (∀ kr, parse body = some kr →
        encryptWithKMS plaintext target net parse = Except.ok kr.CiphertextBlob)
      ∧ (parse body = none →
        encryptWithKMS plaintext target net parse =
          Except.error (KMSError.parseError body)))
  ∧ ((∃ s b, encryptWithKMS plaintext target net parse =
        Except.error (KMSError.statusError s b)) ↔ status ≠ 200) := by
  have hE : encryptWithKMS plaintext target net parse =
      if status ≠ 200 then Except.error (KMSError.statusError status body)
      else
        match parse body with
        | none => Except.error (KMSError.parseError body)
        | some r => Except.ok r.CiphertextBlob := by
    unfold encryptWithKMS
    rw [hnet]
  by_cases hs : status = 200
  · subst hs
    rw [if_neg (by simp)] at hE
    refine ⟨fun h => absurd rfl h, fun _ => ⟨?_, ?_⟩, ?_⟩
    · intro kr hkr
      rw [hE, hkr]
    · intro hkr
      rw [hE, hkr]
    · rw [hE]
      constructor
      · rintro ⟨s, b, hb⟩
        cases hpb : parse body with
        | none => rw [hpb] at hb; cases hb
        | some kr => rw [hpb] at hb; cases hb
      · intro h
        exact absurd rfl h
  · rw [if_pos hs] at hE
    refine ⟨fun _ => hE, fun h => absurd h hs, ?_⟩
    rw [hE]
    exact ⟨fun _ => hs, fun _ => ⟨status, body, rfl⟩⟩

/-- Witness for the amended C5: a 404 response with body "missing"
yields the status error carrying 404 and that body, and a 200 response
proceeds to the parsed blob. -/
theorem encrypt_status_C5_witness :
    encryptWithKMS [] "http://localhost:4566"
      (fun _ => HTTPOutcome.gotResponse 404 (asciiBytes "missing"))
      (fun _ => some ⟨asciiBytes "blob", asciiBytes "k"⟩) =
      Except.error (KMSError.statusError 404 (asciiBytes "missing"))
  ∧ encryptWithKMS [] "http://localhost:4566"
      (fun _ => HTTPOutcome.gotResponse 200 (asciiBytes "resp"))
      (fun _ => some ⟨asciiBytes "blob", asciiBytes "k"⟩) =
      Except.ok (asciiBytes "blob") := by
  constructor
  · exact (encrypt_status_C5_amended [] "http://localhost:4566" _ _ 404
      (asciiBytes "missing") rfl).1 (by omega)
  · exact ((encrypt_status_C5_amended [] "http://localhost:4566" _ _ 200
      (asciiBytes "resp") rfl).2.1 rfl).1 ⟨asciiBytes "blob", asciiBytes "k"⟩ rfl

/-- C6: the request payload is the single 4096-byte-buffer read: a
request of exactly 4096 delivered bytes is processed whole (the handler
encrypts exactly those bytes, with no truncation and no error), and a
request of more than 4096 delivered bytes is silently truncated to its
first 4096 bytes. -/
theorem read_cap_C6 (delivered : List UInt8) :
    (delivered.length = 4096 →
      readOnce delivered = delivered ∧
      ∀ enc w, HEvent.encryptCall delivered ∈
        handleVsockConnection (ReadOutcome.readOk (readOnce delivered)) enc w)
  ∧ (4096 < delivered.length →
      readOnce delivered = delivered.take 4096 ∧
      readOnce delivered ≠ delivered ∧
      ∀ enc w, HEvent.encryptCall (delivered.take 4096) ∈
        handleVsockConnection (ReadOutcome.readOk (readOnce delivered)) enc w) := by
  have hmem : ∀ (d : List UInt8) (enc : List UInt8 → EncOutcome) (w : Bool),
      HEvent.encryptCall d ∈ handleVsockConnection (ReadOutcome.readOk d) enc w := by
    intro d enc w
    cases henc : enc d <;> simp [handleVsockConnection, henc]
  constructor
  · intro hlen
    have heq : readOnce delivered = delivered := by
      rw [readOnce, ← hlen, List.take_length]
    refine ⟨heq, fun enc w => ?_⟩
    rw [heq]
    exact hmem delivered enc w
  · intro hlen
    have hne : readOnce delivered ≠ delivered := by
      intro heq
      have := congrArg List.length heq
      rw [readOnce, List.length_take] at this
      omega
    refine ⟨rfl, hne, fun enc w => ?_⟩
    exact hmem (delivered.take 4096) enc w

/-- Witness for C6: with 4097 delivered bytes, the processed payload is
the first 4096 of them and differs from the delivered request. -/
theorem read_cap_C6_witness :
    readOnce (List.replicate 4097 (0 : UInt8)) = List.replicate 4096 (0 : UInt8)
  ∧ readOnce (List.replicate 4097 (0 : UInt8)) ≠ List.replicate 4097 (0 : UInt8) := by
  have h := (read_cap_C6 (List.replicate 4097 (0 : UInt8))).2
    (by rw [List.length_replicate]; omega)
  refine ⟨?_, h.2.1⟩
  rw [h.1, List.take_replicate]
  congr 1

/-- C7 counterexample: with no environment override the vsock-proxy
listens on port 9000, not 8000 — the claimed default port 8000 is wrong
for the relay whose port is environment-configurable (its Makefile
launch reaches 8000 only by setting the override). -/
theorem listen_port_C7_counterexample :
    listenPort none = 9000 ∧ (9000 : Nat) ≠ 8000 := by
  exact ⟨rfl, by omega⟩

/-- C7 (amended): the vsock-proxy listens at context-id 2 with port
9000 by default (also when the override is empty or unparsable), and
when `VSOCK_PORT` is set to a value that scans as a decimal integer in
`uint32` range, the listening port equals that overridden value. -/
theorem listen_port_C7_amended :
    listenCID = 2
  ∧ listenPort none = 9000
  ∧ listenPort (some "") = 9000
  ∧ (∀ s, s ≠ "" → goSscanfD s = none → listenPort (some s) = 9000)
  ∧ (∀ s v, s ≠ "" → goSscanfD s = some v → 0 ≤ v → v < 4294967296 →
      listenPort (some s) = v.toNat) := by
  refine ⟨rfl, rfl, rfl, ?_, ?_⟩
  · intro s hs hscan
    rw [listenPort, resolveVsockPort, if_neg hs, hscan]
    rfl
  · intro s v hs hscan h0 hlt
    rw [listenPort, resolveVsockPort, if_neg hs, hscan]
    rw [Int.emod_eq_of_lt h0 hlt]

/-- Witness for the amended C7: the deployment's `VSOCK_PORT=8000`
override makes the vsock-proxy listen on port 8000. -/
theorem listen_port_C7_witness :
    listenPort (some "8000") = 8000 ∧ listenPort (some "junk") = 9000 := by
  constructor
  · have h := (listen_port_C7_amended).2.2.2.2 "8000" 8000
      (by decide) (by decide) (by decide) (by decide)
    exact h
  · exact (listen_port_C7_amended).2.2.2.1 "junk" (by decide) (by decide)

/-- C8: the connector loop terminates exactly on the sentinel line
`"exit\n"`, before any socket work for that line; every other line is
sent verbatim (newline included) as the request payload when the write
call is reached; and no socket, connect, write or read error stops the
loop from processing the remaining lines. -/
theorem connector_C8 (rest : List (String × ConnOutcome)) :
    (∀ io_, connectorRun (("exit\n", io_) :: rest) = ([], true))
  ∧ (∀ text io_, text ≠ "exit\n" →
      connectorRun ((text, io_) :: rest) =
        (connectorStep text io_ ++ (connectorRun rest).1, (connectorRun rest).2))
  ∧ (∀ text io_ p, CEvent.sendCall p ∈ connectorStep text io_ → p = asciiBytes text)
  ∧ ((connectorRun rest).2 = true ↔ ∃ e ∈ rest, e.1 = "exit\n") := by
  refine ⟨?_, ?_, ?_, ?_⟩
  · intro io_
    simp [connectorRun]
  · intro text io_ h
    simp [connectorRun, h]
  · intro text io_ p hp
    cases io_ <;> simp [connectorStep] at hp <;> exact hp
  · induction rest with
    | nil => simp [connectorRun]
    | cons e rest ih =>
      obtain ⟨text, io_⟩ := e
      by_cases h : text = "exit\n"
      · subst h
        simp [connectorRun]
      · rw [connectorRun]
        simp only [if_neg h]
        simp only [List.mem_cons, exists_eq_or_imp]
        rw [ih]
        simp [h]

/-- Witness for C8: the sentinel stops the loop with no event; a
non-sentinel line with a connect error still lets the next line be
served, and the payload written for a served line is the line itself,
newline included. -/
theorem connector_C8_witness :
    connectorRun [("exit\n", ConnOutcome.replyOk (asciiBytes "c"))] = ([], true)
  ∧ connectorRun
      [("a\n", ConnOutcome.connectFail), ("b\n", ConnOutcome.replyOk (asciiBytes "c"))] =
      ([CEvent.socketCreated, CEvent.connectCall 3 9000, CEvent.socketClosed,
        CEvent.socketCreated, CEvent.connectCall 3 9000,
        CEvent.sendCall (asciiBytes "b\n"),
        CEvent.printedResult (asciiBytes "c"), CEvent.socketClosed], false) := by
  constructor
  · exact (connector_C8 []).1 (ConnOutcome.replyOk (asciiBytes "c"))
  · have h := (connector_C8 [("b\n", ConnOutcome.replyOk (asciiBytes "c"))]).2.1
      "a\n" ConnOutcome.connectFail (by decide)
    exact h.trans (by decide)

/-- Length of a base64 encoding: 4 output bytes per 3-byte group,
padding included. -/
theorem base64Encode_length (l : List UInt8) :
    (base64Encode l).length = 4 * ((l.length + 2) / 3) := by
  induction l using base64Encode.induct with
  | case1 => simp [base64Encode]
  | case2 b0 => simp [base64Encode]
  | case3 b0 b1 => simp [base64Encode]
  | case4 b0 b1 b2 rest ih =>
    simp only [base64Encode, List.length_cons, ih, List.length_cons]
    omega

/-- A nonempty byte string has a nonempty base64 encoding. -/
theorem base64Encode_ne_nil {l : List UInt8} (h : l ≠ []) :
    base64Encode l ≠ [] := by
  intro hnil
  have hlen := congrArg List.length hnil
  rw [base64Encode_length] at hlen
  have hpos : 0 < l.length := List.length_pos.mpr h
  simp at hlen
  omega

/-- Base64 strictly lengthens every nonempty byte string, so the
encoding never equals its input. -/
theorem base64Encode_ne_self {l : List UInt8} (h : l ≠ []) :
    base64Encode l ≠ l := by
  intro heq
  have hlen := congrArg List.length heq
  rw [base64Encode_length] at hlen
  have hpos : 0 < l.length := List.length_pos.mpr h
  omega

/-- C9 counterexample: the empty payload is under the buffer cap and,
against the base64 stub backend, yields a successful exchange whose
written reply is empty (and equal to the payload): `encryptWithKMS`
returns the empty string on success whenever the backend's
`CiphertextBlob` is empty. -/
theorem encrypt_reply_C9_counterexample :
    ([] : List UInt8).length ≤ 4096
  ∧ encryptWithKMS [] "http://localhost:4566"
      (fun _ => HTTPOutcome.gotResponse 200
        (asciiBytes "\x7b\"CiphertextBlob\":\"\",\"KeyId\":\"k\"\x7d"))
      (fun _ => some ⟨base64Encode [], asciiBytes "k"⟩) =
      Except.ok []
  ∧ handleVsockConnection (ReadOutcome.readOk [])
      (fun _ => EncOutcome.encOk []) true =
      [HEvent.readCall, HEvent.encryptCall [], HEvent.writeCall [],
        HEvent.closeConn] := by
  exact ⟨by decide, rfl, rfl⟩

/-- C9 (amended): a successful encrypt returns the backend's
`CiphertextBlob` verbatim; for every non-empty payload under the buffer
cap, when that blob is the base64 stub transform of the payload the
reply is non-empty and structurally distinct from the payload. The
reply is empty on success exactly when the backend returns an empty
blob. -/
theorem encrypt_reply_C9_amended (P : List UInt8) (target : String)
    (net : HTTPRequest → HTTPOutcome)
    (parse : List UInt8 → Option KMSEncryptResponse)
    (body : List UInt8) (kr : KMSEncryptResponse)
    (hP : P ≠ []) (_hcap : P.length ≤ 4096)
    (hnet : net (buildEncryptRequest P target) =
      HTTPOutcome.gotResponse 200 body)
    (hparse : parse body = some kr) :
    encryptWithKMS P target net parse = Except.ok kr.CiphertextBlob
  ∧ (kr.CiphertextBlob = base64Encode P →
      kr.CiphertextBlob ≠ [] ∧ kr.CiphertextBlob ≠ P) := by
  constructor
  · unfold encryptWithKMS
    rw [hnet]
    simp [hparse]
  · intro hblob
    rw [hblob]
    exact ⟨base64Encode_ne_nil hP, base64Encode_ne_self hP⟩

/-- Witness for the amended C9: the payload `"hi"` yields the reply
`"aGk="` against the base64 stub — non-empty and distinct from the
payload. -/
theorem encrypt_reply_C9_witness :
    encryptWithKMS (asciiBytes "hi") "http://localhost:4566"
      (fun _ => HTTPOutcome.gotResponse 200 (asciiBytes "resp"))
      (fun _ => some ⟨base64Encode (asciiBytes "hi"), asciiBytes "k"⟩) =
      Except.ok (base64Encode (asciiBytes "hi"))
  ∧ base64Encode (asciiBytes "hi") ≠ []
  ∧ base64Encode (asciiBytes "hi") ≠ asciiBytes "hi"
  ∧ base64Encode (asciiBytes "hi") = asciiBytes "aGk=" := by
  have h := encrypt_reply_C9_amended (asciiBytes "hi") "http://localhost:4566"
    (fun _ => HTTPOutcome.gotResponse 200 (asciiBytes "resp"))
    (fun _ => some ⟨base64Encode (asciiBytes "hi"), asciiBytes "k"⟩)
    (asciiBytes "resp") ⟨base64Encode (asciiBytes "hi"), asciiBytes "k"⟩
    (by decide) (by decide) rfl rfl
  exact ⟨h.1, (h.2 rfl).1, (h.2 rfl).2, by decide⟩

/-- C10: a zero-byte read with no error is not an abort: the handler
invokes the encrypt operation with the empty plaintext; the handler
aborts before the encrypt call exactly when the read call itself
returns an error. -/
theorem empty_read_C10 (enc : List UInt8 → EncOutcome) (w : Bool) :
    HEvent.encryptCall [] ∈
      handleVsockConnection (ReadOutcome.readOk []) enc w
  ∧ (∀ rd, (∀ d, HEvent.encryptCall d ∉ handleVsockConnection rd enc w) ↔
      rd = ReadOutcome.readFail) := by
  constructor
  · cases henc : enc [] <;> simp [handleVsockConnection, henc]
  · intro rd
    constructor
    · intro hall
      cases rd with
      | readFail => rfl
      | readOk d =>
        exfalso
        apply hall d
        cases henc : enc d <;> simp [handleVsockConnection, henc]
    · intro h
      subst h
      intro d
      simp [handleVsockConnection]

end NitroSim
